import Mathlib

/-!
Shallow embedding of `orbitize/read_input.py` (function `read_formatted_file`)
and proofs about it.

Modelling choices:
* A cell of the input table is `Option ℚ`: `none` models a masked (blank)
  cell, `some v` an unmasked numeric value.  Numeric cells are rationals.
* A column may be entirely absent from the input schema; `Schema` records,
  for each of the eleven recognised column names, whether the column exists.
  The per-row field of an absent column is never read on a successful run.
* `astropy` raises `KeyError` when `row[name]` is evaluated and the column
  `name` does not exist; `getCell` models that cell access.
* The two `raise Exception(...)` sites of the source and the `KeyError`
  become the constructors of `NormError`; the function returns
  `Except NormError (List CanonicalRow)`.
-/

/-- The eleven recognised input column names. -/
inductive Col where
  | epoch | raoff | raoff_err | decoff | decoff_err
  | sep | sep_err | pa | pa_err | rv | rv_err
deriving DecidableEq, Repr

/-- Which columns exist in the input table (astropy: `name in input_table.columns`). -/
structure Schema where
  has_epoch : Bool
  has_raoff : Bool
  has_raoff_err : Bool
  has_decoff : Bool
  has_decoff_err : Bool
  has_sep : Bool
  has_sep_err : Bool
  has_pa : Bool
  has_pa_err : Bool
  has_rv : Bool
  has_rv_err : Bool
deriving DecidableEq, Repr

/-- One row of the input table: each recognised column has a nullable cell.
The field of a column that is absent from the `Schema` carries no information
(cell access on it fails, see `getCell`). -/
structure InputRow where
  epoch : Option ℚ := none
  raoff : Option ℚ := none
  raoff_err : Option ℚ := none
  decoff : Option ℚ := none
  decoff_err : Option ℚ := none
  sep : Option ℚ := none
  sep_err : Option ℚ := none
  pa : Option ℚ := none
  pa_err : Option ℚ := none
  rv : Option ℚ := none
  rv_err : Option ℚ := none
deriving DecidableEq, Repr

/-- The input table produced by the external tabular reader. -/
structure InputTable where
  schema : Schema
  rows : List InputRow
deriving DecidableEq, Repr

/-- The `quant_type` enum of the output table. -/
inductive QuantType where
  | radec | seppa | rv
deriving DecidableEq, Repr

/-- One row of the canonical output table
(`epoch, quant1, quant1_err, quant2, quant2_err, quant_type`).
Cells are nullable because the source copies masked error cells through and
stores `None` in `quant2`/`quant2_err` of an rv row. -/
structure CanonicalRow where
  epoch : ℚ
  quant1 : Option ℚ
  quant1_err : Option ℚ
  quant2 : Option ℚ
  quant2_err : Option ℚ
  quant_type : QuantType
deriving DecidableEq, Repr

/-- Failures of `read_formatted_file`:
the two explicit `raise Exception(...)` sites of the source and the
`KeyError` that astropy raises when `row[name]` names an absent column. -/
inductive NormError where
  | MissingEpochColumn
  | IncompleteEpochColumn
  | KeyError (c : Col)
deriving DecidableEq, Repr

deriving instance DecidableEq for Except

/-- Cell access `row[name]`: returns the nullable cell when the column exists
in the schema, raises `KeyError` otherwise. -/
def getCell (present : Bool) (v : Option ℚ) (c : Col) : Except NormError (Option ℚ) :=
  if present then .ok v else .error (.KeyError c)

/-- Per-row presence flag for `raoff` (source: `have_ra = ~input_table[raoff].mask`,
or an all-False vector when the column is absent). -/
def have_ra (s : Schema) (r : InputRow) : Bool :=
  s.has_raoff && r.raoff.isSome

/-- Per-row presence flag for `decoff`. -/
def have_dec (s : Schema) (r : InputRow) : Bool :=
  s.has_decoff && r.decoff.isSome

/-- Per-row presence flag for `sep`. -/
def have_sep (s : Schema) (r : InputRow) : Bool :=
  s.has_sep && r.sep.isSome

/-- Per-row presence flag for `pa`. -/
def have_pa (s : Schema) (r : InputRow) : Bool :=
  s.has_pa && r.pa.isSome

/-- Per-row presence flag for `rv`. -/
def have_rv (s : Schema) (r : InputRow) : Bool :=
  s.has_rv && r.rv.isSome

/-- Condition of the first emission branch: `have_ra[index] and have_dec[index]`. -/
def has_radec (s : Schema) (r : InputRow) : Bool :=
  have_ra s r && have_dec s r

/-- Condition of the second emission branch: `have_sep[index] and have_pa[index]`. -/
def has_seppa (s : Schema) (r : InputRow) : Bool :=
  have_sep s r && have_pa s r

/-- Epoch normalisation of the source:
`if row[epoch] > 2400000.5: MJD = row[epoch] - 2400000.5 else: MJD = row[epoch]`. -/
def mjdOf (e : ℚ) : ℚ :=
  if e > (2400000.5 : ℚ) then e - (2400000.5 : ℚ) else e

/-- First emission branch of the loop body:
`if have_ra[index] and have_dec[index]: output_table.add_row([MJD, row[raoff],
row[raoff_err], row[decoff], row[decoff_err], "radec"])`. -/
def radecBranch (s : Schema) (r : InputRow) (mjd : ℚ) :
    Except NormError (List CanonicalRow) :=
  if has_radec s r then do
    let v1 ← getCell s.has_raoff r.raoff .raoff
    let e1 ← getCell s.has_raoff_err r.raoff_err .raoff_err
    let v2 ← getCell s.has_decoff r.decoff .decoff
    let e2 ← getCell s.has_decoff_err r.decoff_err .decoff_err
    pure [⟨mjd, v1, e1, v2, e2, .radec⟩]
  else pure []

/-- Second emission branch:
`if have_sep[index] and have_pa[index]: output_table.add_row([MJD, row[sep],
row[sep_err], row[pa], row[pa_err], "seppa"])`. -/
def seppaBranch (s : Schema) (r : InputRow) (mjd : ℚ) :
    Except NormError (List CanonicalRow) :=
  if has_seppa s r then do
    let v1 ← getCell s.has_sep r.sep .sep
    let e1 ← getCell s.has_sep_err r.sep_err .sep_err
    let v2 ← getCell s.has_pa r.pa .pa
    let e2 ← getCell s.has_pa_err r.pa_err .pa_err
    pure [⟨mjd, v1, e1, v2, e2, .seppa⟩]
  else pure []

/-- Third emission branch:
`if have_rv[index]: output_table.add_row([MJD, row[rv], row[rv_err], None, None, "rv"])`. -/
def rvBranch (s : Schema) (r : InputRow) (mjd : ℚ) :
    Except NormError (List CanonicalRow) :=
  if have_rv s r then do
    let v1 ← getCell s.has_rv r.rv .rv
    let e1 ← getCell s.has_rv_err r.rv_err .rv_err
    pure [⟨mjd, v1, e1, none, none, .rv⟩]
  else pure []

/-- Body of the per-row loop: epoch normalisation followed by the three
independent emission branches, in source order.  The epoch cell is known
unmasked here because `read_formatted_file` checks `have_epoch.all()` before
the loop; `getD 0` is never the default on a reachable call. -/
def processRow (s : Schema) (r : InputRow) : Except NormError (List CanonicalRow) := do
  let mjd := mjdOf (r.epoch.getD 0)
  let l1 ← radecBranch s r mjd
  let l2 ← seppaBranch s r mjd
  let l3 ← rvBranch s r mjd
  pure (l1 ++ l2 ++ l3)

/-- The `for row in input_table` loop: run `processRow` on each row in order
and append the emitted canonical rows to the output table. -/
def processRows (s : Schema) : List InputRow → Except NormError (List CanonicalRow)
  | [] => .ok []
  | r :: rest => do
    let l ← processRow s r
    let ls ← processRows s rest
    pure (l ++ ls)

/-- The normaliser `read_formatted_file` of `orbitize/read_input.py`:
validate that the `epoch` column exists (`raise Exception("Input table MUST
have epoch!")` otherwise), compute the presence vectors, fail when any epoch
cell is masked (`raise Exception("Invalid input format: missing some epoch
entries")`), then run the per-row loop and return the accumulated rows. -/
def read_formatted_file (t : InputTable) : Except NormError (List CanonicalRow) :=
  if t.schema.has_epoch then
    if t.rows.all (fun r => r.epoch.isSome) then
      processRows t.schema t.rows
    else .error .IncompleteEpochColumn
  else .error .MissingEpochColumn

/-!
Derived definitions used to state and prove properties.
-/

/-- Number of satisfied emission conditions of a row: how many output rows
the loop body emits for it on a successful run. -/
def numTypes (s : Schema) (r : InputRow) : ℕ :=
  (if has_radec s r then 1 else 0) + (if has_seppa s r then 1 else 0) +
    (if have_rv s r then 1 else 0)

/-- The canonical rows the loop body emits for a row on a successful run,
in emission order. -/
def expectedRows (s : Schema) (r : InputRow) : List CanonicalRow :=
  (if has_radec s r then
    [⟨mjdOf (r.epoch.getD 0), r.raoff, r.raoff_err, r.decoff, r.decoff_err, .radec⟩]
  else []) ++
  (if has_seppa s r then
    [⟨mjdOf (r.epoch.getD 0), r.sep, r.sep_err, r.pa, r.pa_err, .seppa⟩]
  else []) ++
  (if have_rv s r then
    [⟨mjdOf (r.epoch.getD 0), r.rv, r.rv_err, none, none, .rv⟩]
  else [])

/-- The `quant_type` sequence the loop body emits for a row, in emission
order: `radec` first, then `seppa`, then `rv`. -/
def typePattern (s : Schema) (r : InputRow) : List QuantType :=
  (if has_radec s r then [.radec] else []) ++
    (if has_seppa s r then [.seppa] else []) ++
    (if have_rv s r then [.rv] else [])

/-- Whether every error column read by a fired branch of this row exists in
the schema (so that no `KeyError` is raised for the row). -/
def errColsOk (s : Schema) (r : InputRow) : Bool :=
  (!has_radec s r || (s.has_raoff_err && s.has_decoff_err)) &&
    (!has_seppa s r || (s.has_sep_err && s.has_pa_err)) &&
    (!have_rv s r || s.has_rv_err)

/-- Structural facts true of every canonical row the normaliser emits:
`quant1` is an unmasked value, `quant2` is unmasked for `radec`/`seppa`
rows and masked (together with `quant2_err`) for `rv` rows. -/
def wellShaped (c : CanonicalRow) : Bool :=
  c.quant1.isSome &&
    (match c.quant_type with
      | .radec => c.quant2.isSome
      | .seppa => c.quant2.isSome
      | .rv => c.quant2 == none && c.quant2_err == none)

/-- Modelled from the spec: the schema of a canonical table re-labelled with
the original input column names (all eleven columns exist). -/
def fullSchema : Schema :=
  ⟨true, true, true, true, true, true, true, true, true, true, true⟩

/-- Modelled from the spec: re-label one canonical row with the original
input column names, mapping `quant1`/`quant2` back to `raoff`/`decoff`,
`sep`/`pa` or `rv` according to `quant_type`. -/
def relabelRow (c : CanonicalRow) : InputRow :=
  match c.quant_type with
  | .radec =>
    { epoch := some c.epoch, raoff := c.quant1, raoff_err := c.quant1_err,
      decoff := c.quant2, decoff_err := c.quant2_err }
  | .seppa =>
    { epoch := some c.epoch, sep := c.quant1, sep_err := c.quant1_err,
      pa := c.quant2, pa_err := c.quant2_err }
  | .rv =>
    { epoch := some c.epoch, rv := c.quant1, rv_err := c.quant1_err }

/-- Modelled from the spec: re-label a canonical output table with the
original input column names, for the round-trip property. -/
def relabel (l : List CanonicalRow) : InputTable :=
  ⟨fullSchema, l.map relabelRow⟩

/-!
Concrete fixtures used by witnesses and counterexamples.
-/

/-- Schema with every column except `epoch` (the `epoch` column is absent). -/
def schemaNoEpoch : Schema :=
  ⟨false, true, true, true, true, true, true, true, true, true, true⟩

/-- Schema with only `epoch`, `raoff` and `decoff` columns: the error columns
`raoff_err` and `decoff_err` are entirely absent. -/
def schemaRadecNoErr : Schema :=
  ⟨true, true, false, true, false, false, false, false, false, false, false⟩

/-- Schema without the `sep` and `pa` columns (and without `sep_err`/`pa_err`). -/
def schemaNoSepPa : Schema :=
  ⟨true, true, true, true, true, false, false, false, false, true, true⟩

/-- A row carrying all three measurement sets, with a JD epoch and a masked
`sep_err` cell. -/
def rowAll : InputRow :=
  { epoch := some 2451545, raoff := some 1, raoff_err := some (1/10),
    decoff := some 2, decoff_err := some (2/10), sep := some 3, sep_err := none,
    pa := some 4, pa_err := some (4/10), rv := some 5, rv_err := some (5/10) }

/-- A row carrying only an epoch and no measurement at all. -/
def rowEmpty : InputRow := { epoch := some 1 }

/-- A row whose epoch cell is masked but which carries a valid rv measurement. -/
def rowNullEpoch : InputRow := { rv := some 7, rv_err := some 1 }

/-- A valid rv row with a JD epoch. -/
def rowRvJD : InputRow :=
  { epoch := some 2451545, rv := some 10, rv_err := some 1 }

/-- A valid rv row with an epoch already below the JD threshold. -/
def rowRvMJD : InputRow :=
  { epoch := some (51544.5 : ℚ), rv := some 10, rv_err := some 1 }

/-- A valid rv row with epoch exactly at the threshold `2400000.5`. -/
def rowRvBoundary : InputRow :=
  { epoch := some (2400000.5 : ℚ), rv := some 10, rv_err := some 1 }

/-- A row with a lone `raoff` (no `decoff` cell) and a masked `raoff_err`. -/
def rowLoneRa : InputRow := { epoch := some 5, raoff := some 9 }

/-- A radec row whose error cells are both masked. -/
def rowRadecNullErr : InputRow :=
  { epoch := some 6, raoff := some 11, decoff := some 12 }

/-- A row with `raoff` and `decoff` cells, used with `schemaRadecNoErr`. -/
def rowRadecOnly : InputRow :=
  { epoch := some 1, raoff := some 2, decoff := some 3 }

/-- An rv row whose JD epoch is so large that the computed MJD is itself
above the threshold `2400000.5`. -/
def rowHugeEpoch : InputRow :=
  { epoch := some 4800002, rv := some 1, rv_err := some 0 }

/-- A row satisfying both the radec and the rv conditions. -/
def rowRadecRv : InputRow :=
  { epoch := some 10, raoff := some 1, raoff_err := some 2, decoff := some 3,
    decoff_err := some 4, rv := some 5, rv_err := some 6 }

/-- Three-row table: the first row fans out into two output rows, the other
two rows carry nothing but an epoch. -/
def tableFanThenEmpty : InputTable :=
  ⟨fullSchema, [rowRadecRv, { epoch := some 2 }, { epoch := some 3 }]⟩

/-!
Basic computation lemmas.
-/

theorem ok_bind {ε α β : Type} (a : α) (f : α → Except ε β) :
    (Except.ok a >>= f) = f a := rfl

theorem error_bind {ε α β : Type} (e : ε) (f : α → Except ε β) :
    ((Except.error e : Except ε α) >>= f) = Except.error e := rfl

theorem pure_eq_ok {ε α : Type} (a : α) : (pure a : Except ε α) = Except.ok a := rfl

theorem getCell_true (v : Option ℚ) (c : Col) : getCell true v c = .ok v := rfl

theorem getCell_false (v : Option ℚ) (c : Col) :
    getCell false v c = .error (.KeyError c) := rfl

/-- Full characterisation of the radec branch. -/
theorem radecBranch_eq (s : Schema) (r : InputRow) (m : ℚ) :
    radecBranch s r m =
      (if has_radec s r then
        (if s.has_raoff_err = false then .error (.KeyError .raoff_err)
         else if s.has_decoff_err = false then .error (.KeyError .decoff_err)
         else .ok [⟨m, r.raoff, r.raoff_err, r.decoff, r.decoff_err, .radec⟩])
      else .ok []) := by
  by_cases hrd : has_radec s r = true
  · have h := hrd
    simp only [has_radec, have_ra, have_dec, Bool.and_eq_true] at h
    obtain ⟨⟨hra, _⟩, hdec, _⟩ := h
    cases h1 : s.has_raoff_err <;> cases h2 : s.has_decoff_err <;>
      simp [radecBranch, hrd, hra, hdec, h1, h2, getCell, ok_bind, error_bind,
        pure_eq_ok]
  · simp only [Bool.not_eq_true] at hrd
    simp [radecBranch, hrd, pure_eq_ok]

/-- Full characterisation of the seppa branch. -/
theorem seppaBranch_eq (s : Schema) (r : InputRow) (m : ℚ) :
    seppaBranch s r m =
      (if has_seppa s r then
        (if s.has_sep_err = false then .error (.KeyError .sep_err)
         else if s.has_pa_err = false then .error (.KeyError .pa_err)
         else .ok [⟨m, r.sep, r.sep_err, r.pa, r.pa_err, .seppa⟩])
      else .ok []) := by
  by_cases hsp : has_seppa s r = true
  · have h := hsp
    simp only [has_seppa, have_sep, have_pa, Bool.and_eq_true] at h
    obtain ⟨⟨hs, _⟩, hp, _⟩ := h
    cases h1 : s.has_sep_err <;> cases h2 : s.has_pa_err <;>
      simp [seppaBranch, hsp, hs, hp, h1, h2, getCell, ok_bind, error_bind,
        pure_eq_ok]
  · simp only [Bool.not_eq_true] at hsp
    simp [seppaBranch, hsp, pure_eq_ok]

/-- Full characterisation of the rv branch. -/
theorem rvBranch_eq (s : Schema) (r : InputRow) (m : ℚ) :
    rvBranch s r m =
      (if have_rv s r then
        (if s.has_rv_err = false then .error (.KeyError .rv_err)
         else .ok [⟨m, r.rv, r.rv_err, none, none, .rv⟩])
      else .ok []) := by
  by_cases hrv : have_rv s r = true
  · have h := hrv
    simp only [have_rv, Bool.and_eq_true] at h
    obtain ⟨hv, _⟩ := h
    cases h1 : s.has_rv_err <;>
      simp [rvBranch, hrv, hv, h1, getCell, ok_bind, error_bind, pure_eq_ok]
  · simp only [Bool.not_eq_true] at hrv
    simp [rvBranch, hrv, pure_eq_ok]

/-- The first absent error column that the loop body reads for this row,
in read order (meaningful when `errColsOk` is false). -/
def firstMissing (s : Schema) (r : InputRow) : Col :=
  if has_radec s r && !s.has_raoff_err then .raoff_err
  else if has_radec s r && !s.has_decoff_err then .decoff_err
  else if has_seppa s r && !s.has_sep_err then .sep_err
  else if has_seppa s r && !s.has_pa_err then .pa_err
  else .rv_err

set_option maxHeartbeats 4000000 in
/-- Master characterisation of the loop body: it emits the expected rows when
every error column read by a fired branch exists, and raises the `KeyError`
of the first absent one otherwise. -/
theorem processRow_eq (s : Schema) (r : InputRow) :
    processRow s r =
      if errColsOk s r then .ok (expectedRows s r)
      else .error (.KeyError (firstMissing s r)) := by
  cases hrd : has_radec s r <;> cases hsp : has_seppa s r <;> cases hrv : have_rv s r <;>
    cases h1 : s.has_raoff_err <;> cases h2 : s.has_decoff_err <;>
    cases h3 : s.has_sep_err <;> cases h4 : s.has_pa_err <;> cases h5 : s.has_rv_err <;>
      simp [processRow, radecBranch_eq, seppaBranch_eq, rvBranch_eq, errColsOk,
        expectedRows, firstMissing, hrd, hsp, hrv, h1, h2, h3, h4, h5,
        ok_bind, error_bind, pure_eq_ok]

/-- A row whose fired branches have their error columns in the schema is
processed without error into its expected rows. -/
theorem processRow_ok_of_errColsOk {s : Schema} {r : InputRow}
    (h : errColsOk s r = true) : processRow s r = .ok (expectedRows s r) := by
  rw [processRow_eq, if_pos h]

/-- A successful run of the loop body emits exactly the expected rows, and
certifies that the error columns of the fired branches exist. -/
theorem processRow_inv {s : Schema} {r : InputRow} {l : List CanonicalRow}
    (h : processRow s r = .ok l) :
    errColsOk s r = true ∧ l = expectedRows s r := by
  rw [processRow_eq] at h
  by_cases he : errColsOk s r = true
  · rw [if_pos he] at h
    exact ⟨he, (Except.ok.injEq _ _ |>.mp h).symm⟩
  · rw [if_neg he] at h
    exact absurd h (by simp)

/-- Any failure of the loop body is a `KeyError`. -/
theorem processRow_error_key {s : Schema} {r : InputRow} {e : NormError}
    (h : processRow s r = .error e) : ∃ c, e = .KeyError c := by
  rw [processRow_eq] at h
  by_cases he : errColsOk s r = true
  · rw [if_pos he] at h
    exact absurd h (by simp)
  · rw [if_neg he] at h
    exact ⟨firstMissing s r, (Except.error.injEq _ _ |>.mp h).symm⟩


/-- Evaluation of `==` on the `quant_type` enum. -/
@[simp] theorem qt_beq (a b : QuantType) :
    (a == b) = (match a, b with
      | .radec, .radec => true | .seppa, .seppa => true | .rv, .rv => true
      | _, _ => false) := by
  cases a <;> cases b <;> rfl

/-- The expected rows of one input row: their count is the number of
satisfied conditions. -/
theorem expectedRows_length (s : Schema) (r : InputRow) :
    (expectedRows s r).length = numTypes s r := by
  cases hrd : has_radec s r <;> cases hsp : has_seppa s r <;> cases hrv : have_rv s r <;>
    simp [expectedRows, numTypes, hrd, hsp, hrv]

/-- Every expected row of one input row carries the normalised epoch of that
input row. -/
theorem expectedRows_epoch (s : Schema) (r : InputRow) :
    ∀ c ∈ expectedRows s r, c.epoch = mjdOf (r.epoch.getD 0) := by
  cases hrd : has_radec s r <;> cases hsp : has_seppa s r <;> cases hrv : have_rv s r <;>
    (intro c hc
     simp [expectedRows, hrd, hsp, hrv] at hc) <;>
    first
      | (rcases hc with hc | hc | hc <;> simp [hc])
      | (rcases hc with hc | hc <;> simp [hc])
      | simp [hc]

/-- The quant types of the expected rows, in emission order. -/
theorem expectedRows_types (s : Schema) (r : InputRow) :
    (expectedRows s r).map (fun c => c.quant_type) = typePattern s r := by
  cases hrd : has_radec s r <;> cases hsp : has_seppa s r <;> cases hrv : have_rv s r <;>
    simp [expectedRows, typePattern, hrd, hsp, hrv]

/-- Exactly one radec row is expected when the radec condition holds, none
otherwise; its payload is copied verbatim from the input row. -/
theorem expectedRows_filter_radec (s : Schema) (r : InputRow) :
    (expectedRows s r).filter (fun c => c.quant_type == .radec) =
      (if has_radec s r then
        [⟨mjdOf (r.epoch.getD 0), r.raoff, r.raoff_err, r.decoff, r.decoff_err, .radec⟩]
      else []) := by
  cases hrd : has_radec s r <;> cases hsp : has_seppa s r <;> cases hrv : have_rv s r <;>
    simp [expectedRows, hrd, hsp, hrv, List.filter_cons]

/-- Exactly one seppa row is expected when the seppa condition holds. -/
theorem expectedRows_filter_seppa (s : Schema) (r : InputRow) :
    (expectedRows s r).filter (fun c => c.quant_type == .seppa) =
      (if has_seppa s r then
        [⟨mjdOf (r.epoch.getD 0), r.sep, r.sep_err, r.pa, r.pa_err, .seppa⟩]
      else []) := by
  cases hrd : has_radec s r <;> cases hsp : has_seppa s r <;> cases hrv : have_rv s r <;>
    simp [expectedRows, hrd, hsp, hrv, List.filter_cons]

/-- Exactly one rv row is expected when the rv condition holds; it stores
masked values in `quant2` and `quant2_err`. -/
theorem expectedRows_filter_rv (s : Schema) (r : InputRow) :
    (expectedRows s r).filter (fun c => c.quant_type == .rv) =
      (if have_rv s r then
        [⟨mjdOf (r.epoch.getD 0), r.rv, r.rv_err, none, none, .rv⟩]
      else []) := by
  cases hrd : has_radec s r <;> cases hsp : has_seppa s r <;> cases hrv : have_rv s r <;>
    simp [expectedRows, hrd, hsp, hrv, List.filter_cons]

/-- Every expected row is well shaped. -/
theorem expectedRows_wellShaped (s : Schema) (r : InputRow) :
    ∀ c ∈ expectedRows s r, wellShaped c = true := by
  intro c hc
  cases hrd : has_radec s r <;> cases hsp : has_seppa s r <;> cases hrv : have_rv s r <;>
    simp [expectedRows, hrd, hsp, hrv] at hc
  all_goals {
    have hra := hrd
    have hsep := hsp
    have hv := hrv
    simp only [has_radec, has_seppa, have_ra, have_dec, have_sep, have_pa, have_rv,
      Bool.and_eq_true] at hra hsep hv
    first
      | (rcases hc with hc | hc | hc <;> (subst hc; simp [wellShaped]; tauto))
      | (rcases hc with hc | hc <;> (subst hc; simp [wellShaped]; tauto))
      | (subst hc; simp [wellShaped]; tauto)
  }

/-- When every row has its fired error columns in the schema, the loop
succeeds and concatenates the expected rows of each input row in order. -/
theorem processRows_ok_of {s : Schema} {rows : List InputRow}
    (h : ∀ r ∈ rows, errColsOk s r = true) :
    processRows s rows = .ok ((rows.map (expectedRows s)).flatten) := by
  induction rows with
  | nil => rfl
  | cons r rest ih =>
    have h1 : errColsOk s r = true := h r (by simp)
    have h2 := ih (fun x hx => h x (by simp [hx]))
    simp [processRows, processRow_ok_of_errColsOk h1, h2, ok_bind, pure_eq_ok]

/-- A successful run of the loop certifies every row and returns exactly the
concatenation of the expected rows of each input row, in input order. -/
theorem processRows_inv {s : Schema} {rows : List InputRow}
    {out : List CanonicalRow} (h : processRows s rows = .ok out) :
    (∀ r ∈ rows, errColsOk s r = true) ∧
      out = (rows.map (expectedRows s)).flatten := by
  induction rows generalizing out with
  | nil =>
    simp [processRows] at h
    simp [h.symm]
  | cons r rest ih =>
    cases hr : processRow s r with
    | error e => simp [processRows, hr, error_bind] at h
    | ok l =>
      cases hrest : processRows s rest with
      | error e => simp [processRows, hr, hrest, ok_bind, error_bind] at h
      | ok ls =>
        simp only [processRows, hr, hrest, ok_bind, pure_eq_ok,
          Except.ok.injEq] at h
        obtain ⟨he, hl⟩ := processRow_inv hr
        obtain ⟨hes, hls⟩ := ih hrest
        refine ⟨?_, ?_⟩
        · intro x hx
          rcases List.mem_cons.mp hx with hx | hx
          · exact hx ▸ he
          · exact hes x hx
        · simp [← h, hl, hls]

/-- Any failure of the loop is a `KeyError`. -/
theorem processRows_error_key {s : Schema} {rows : List InputRow}
    {e : NormError} (h : processRows s rows = .error e) :
    ∃ c, e = .KeyError c := by
  induction rows generalizing e with
  | nil => simp [processRows] at h
  | cons r rest ih =>
    cases hr : processRow s r with
    | error e1 =>
      simp only [processRows, hr, error_bind, Except.error.injEq] at h
      exact h ▸ processRow_error_key hr
    | ok l =>
      cases hrest : processRows s rest with
      | error e2 =>
        simp only [processRows, hr, hrest, ok_bind, error_bind,
          Except.error.injEq] at h
        exact h ▸ ih hrest
      | ok ls => simp [processRows, hr, hrest, ok_bind, pure_eq_ok] at h

/-- When every mapped row is processed into exactly its preimage, the loop
reproduces the original list. -/
theorem processRows_singletons {s : Schema} {l : List CanonicalRow}
    {f : CanonicalRow → InputRow}
    (h : ∀ c ∈ l, processRow s (f c) = .ok [c]) :
    processRows s (l.map f) = .ok l := by
  induction l with
  | nil => rfl
  | cons c rest ih =>
    have h1 := h c (by simp)
    have h2 := ih (fun x hx => h x (by simp [hx]))
    simp [processRows, h1, h2, ok_bind, pure_eq_ok]

/-- When the `epoch` column is absent the normaliser fails immediately. -/
theorem rff_missing {t : InputTable} (h : t.schema.has_epoch = false) :
    read_formatted_file t = .error .MissingEpochColumn := by
  simp [read_formatted_file, h]

/-- When the `epoch` column exists but some epoch cell is masked, the
normaliser fails with the whole-table check before the loop. -/
theorem rff_incomplete {t : InputTable} (h : t.schema.has_epoch = true)
    (h2 : ∃ r ∈ t.rows, r.epoch = none) :
    read_formatted_file t = .error .IncompleteEpochColumn := by
  obtain ⟨r, hr, hnone⟩ := h2
  have : ¬ t.rows.all (fun r => r.epoch.isSome) = true := by
    simp only [List.all_eq_true, not_forall]
    exact ⟨r, hr, by simp [hnone]⟩
  simp [read_formatted_file, h, this]

/-- When the `epoch` column exists and every epoch cell is unmasked, the
normaliser is exactly the per-row loop. -/
theorem rff_run {t : InputTable} (h : t.schema.has_epoch = true)
    (h2 : ∀ r ∈ t.rows, r.epoch.isSome = true) :
    read_formatted_file t = processRows t.schema t.rows := by
  have : t.rows.all (fun r => r.epoch.isSome) = true := List.all_eq_true.mpr h2
  simp [read_formatted_file, h, this]

/-- A successful run certifies the schema and epoch checks and hands back the
result of the loop. -/
theorem rff_ok_inv {t : InputTable} {out : List CanonicalRow}
    (h : read_formatted_file t = .ok out) :
    t.schema.has_epoch = true ∧ (∀ r ∈ t.rows, r.epoch.isSome = true) ∧
      processRows t.schema t.rows = .ok out := by
  by_cases h1 : t.schema.has_epoch = true
  · by_cases h2 : t.rows.all (fun r => r.epoch.isSome) = true
    · refine ⟨h1, List.all_eq_true.mp h2, ?_⟩
      rw [← rff_run h1 (List.all_eq_true.mp h2)]
      exact h
    · rw [read_formatted_file, if_pos h1, if_neg h2] at h
      exact absurd h (by simp)
  · rw [read_formatted_file, if_neg h1] at h
    exact absurd h (by simp)

/-- An rv row among the expected rows stores masked `quant2`/`quant2_err`. -/
theorem expectedRows_rv_nulls (s : Schema) (r : InputRow) :
    ∀ c ∈ expectedRows s r, c.quant_type = .rv →
      c.quant2 = none ∧ c.quant2_err = none := by
  intro c hc ht
  have hmem : c ∈ (expectedRows s r).filter (fun c => c.quant_type == .rv) :=
    List.mem_filter.mpr ⟨hc, by simp [ht]⟩
  rw [expectedRows_filter_rv] at hmem
  by_cases hrv : have_rv s r = true
  · rw [if_pos hrv] at hmem
    simp at hmem
    simp [hmem]
  · simp only [Bool.not_eq_true] at hrv
    simp [hrv] at hmem

/-- Error cells are copied verbatim from the input row into the expected
rows, for each measurement type. -/
theorem expectedRows_err_verbatim (s : Schema) (r : InputRow) :
    ∀ c ∈ expectedRows s r,
      (c.quant_type = .radec →
        c.quant1_err = r.raoff_err ∧ c.quant2_err = r.decoff_err) ∧
      (c.quant_type = .seppa →
        c.quant1_err = r.sep_err ∧ c.quant2_err = r.pa_err) ∧
      (c.quant_type = .rv → c.quant1_err = r.rv_err) := by
  intro c hc
  cases hrd : has_radec s r <;> cases hsp : has_seppa s r <;> cases hrv : have_rv s r <;>
    simp [expectedRows, hrd, hsp, hrv] at hc
  all_goals
    first
      | (rcases hc with hc | hc | hc <;> (subst hc; simp))
      | (rcases hc with hc | hc <;> (subst hc; simp))
      | (subst hc; simp)

/-- No seppa row is expected from a row whose seppa condition is false. -/
theorem expectedRows_no_seppa {s : Schema} {r : InputRow}
    (h : has_seppa s r = false) :
    ∀ c ∈ expectedRows s r, c.quant_type ≠ .seppa := by
  intro c hc ht
  have hmem : c ∈ (expectedRows s r).filter (fun c => c.quant_type == .seppa) :=
    List.mem_filter.mpr ⟨hc, by simp [ht]⟩
  rw [expectedRows_filter_seppa, if_neg (by simp [h])] at hmem
  simp at hmem

/-- With all eleven columns in the schema no `KeyError` can occur. -/
theorem errColsOk_full (r : InputRow) : errColsOk fullSchema r = true := by
  simp [errColsOk, fullSchema]

/-- The re-labelled row keeps its epoch in the `epoch` cell, unmasked. -/
theorem relabelRow_epoch (c : CanonicalRow) :
    (relabelRow c).epoch = some c.epoch := by
  cases hq : c.quant_type <;> simp [relabelRow, hq]

/-- Processing the re-labelled image of a well-shaped canonical row whose
epoch is at most the JD threshold reproduces exactly that row. -/
theorem processRow_relabel {c : CanonicalRow} (hws : wellShaped c = true)
    (hm : ¬ ((2400000.5 : ℚ) < c.epoch)) :
    processRow fullSchema (relabelRow c) = .ok [c] := by
  rw [processRow_ok_of_errColsOk (errColsOk_full _)]
  cases c with
  | mk e q1 q1e q2 q2e qt =>
    cases qt <;>
      simp only [wellShaped, Bool.and_eq_true, beq_iff_eq] at hws <;>
      simp [expectedRows, relabelRow, has_radec, has_seppa, have_ra, have_dec,
        have_sep, have_pa, have_rv, fullSchema, hws, mjdOf, hm]

/-- A pointwise property along a map gives a `Forall₂`. -/
theorem forall₂_map_self {α β : Type} {R : α → β → Prop} {f : α → β}
    {l : List α} (h : ∀ a ∈ l, R a (f a)) : List.Forall₂ R l (l.map f) := by
  induction l with
  | nil => simp
  | cons a rest ih =>
    simp only [List.map_cons, List.forall₂_cons]
    exact ⟨h a (by simp), ih (fun x hx => h x (by simp [hx]))⟩

/-- Concrete run: one rv row with a JD epoch. -/
theorem run_rowRvJD :
    processRow fullSchema rowRvJD = .ok [⟨51544.5, some 10, some 1, none, none, .rv⟩] := by
  rw [processRow_ok_of_errColsOk (by decide)]
  norm_num [expectedRows, has_radec, has_seppa, have_ra, have_dec, have_sep,
    have_pa, have_rv, fullSchema, rowRvJD, mjdOf]

/-- Concrete run: a radec row with masked error cells. -/
theorem run_rowRadecNullErr :
    processRow fullSchema rowRadecNullErr =
      .ok [⟨6, some 11, none, some 12, none, .radec⟩] := by
  rw [processRow_ok_of_errColsOk (by decide)]
  norm_num [expectedRows, has_radec, has_seppa, have_ra, have_dec, have_sep,
    have_pa, have_rv, fullSchema, rowRadecNullErr, mjdOf]

/-- Concrete run: the full pipeline on a single row carrying all three
measurement sets. -/
theorem run_rowAll :
    read_formatted_file ⟨fullSchema, [rowAll]⟩ =
      .ok [⟨51544.5, some 1, some (1/10), some 2, some (2/10), .radec⟩,
           ⟨51544.5, some 3, none, some 4, some (4/10), .seppa⟩,
           ⟨51544.5, some 5, some (5/10), none, none, .rv⟩] := by
  rw [rff_run rfl (by decide)]
  simp only [processRows, processRow_ok_of_errColsOk (show errColsOk fullSchema rowAll = true by decide),
    ok_bind, pure_eq_ok]
  norm_num [expectedRows, has_radec, has_seppa, have_ra, have_dec, have_sep,
    have_pa, have_rv, fullSchema, rowAll, mjdOf]

/-- Concrete run: the full pipeline on a schema without `sep`/`pa` columns. -/
theorem run_noSepPa :
    read_formatted_file ⟨schemaNoSepPa, [rowRadecRv]⟩ =
      .ok [⟨10, some 1, some 2, some 3, some 4, .radec⟩,
           ⟨10, some 5, some 6, none, none, .rv⟩] := by
  rw [rff_run rfl (by decide)]
  simp only [processRows, processRow_ok_of_errColsOk (show errColsOk schemaNoSepPa rowRadecRv = true by decide),
    ok_bind, pure_eq_ok]
  norm_num [expectedRows, has_radec, has_seppa, have_ra, have_dec, have_sep,
    have_pa, have_rv, schemaNoSepPa, rowRadecRv, mjdOf]

/-- Concrete run: the full pipeline on an rv row already in MJD. -/
theorem run_rowRvMJD :
    read_formatted_file ⟨fullSchema, [rowRvMJD]⟩ =
      .ok [⟨51544.5, some 10, some 1, none, none, .rv⟩] := by
  rw [rff_run rfl (by decide)]
  simp only [processRows, processRow_ok_of_errColsOk (show errColsOk fullSchema rowRvMJD = true by decide),
    ok_bind, pure_eq_ok]
  norm_num [expectedRows, has_radec, has_seppa, have_ra, have_dec, have_sep,
    have_pa, have_rv, fullSchema, rowRvMJD, mjdOf]

/-- Concrete run: the full pipeline on one radec+rv row. -/
theorem run_radecRv :
    read_formatted_file ⟨fullSchema, [rowRadecRv]⟩ =
      .ok [⟨10, some 1, some 2, some 3, some 4, .radec⟩,
           ⟨10, some 5, some 6, none, none, .rv⟩] := by
  rw [rff_run rfl (by decide)]
  simp only [processRows, processRow_ok_of_errColsOk (show errColsOk fullSchema rowRadecRv = true by decide),
    ok_bind, pure_eq_ok]
  norm_num [expectedRows, has_radec, has_seppa, have_ra, have_dec, have_sep,
    have_pa, have_rv, fullSchema, rowRadecRv, mjdOf]

/-- Concrete run: a fan-out row followed by two empty rows. -/
theorem run_fanThenEmpty :
    read_formatted_file tableFanThenEmpty =
      .ok [⟨10, some 1, some 2, some 3, some 4, .radec⟩,
           ⟨10, some 5, some 6, none, none, .rv⟩] := by
  rw [rff_run rfl (by decide), processRows_ok_of (by decide)]
  norm_num [expectedRows, has_radec, has_seppa, have_ra, have_dec, have_sep,
    have_pa, have_rv, fullSchema, rowRadecRv, tableFanThenEmpty, mjdOf]

/-!
Claim theorems.
-/

/-- C1: the three classification conditions are evaluated independently and
non-exclusively.  A row satisfying none of them is processed into zero
output rows with no error; on any successful run the loop body emits
exactly one output row per satisfied condition (so `numTypes` rows in all,
up to three), all output rows of the row share its single normalised epoch,
and each rv output row stores masked `quant2` and `quant2_err`. -/
theorem C1_row_fanout (s : Schema) (r : InputRow) :
    (has_radec s r = false → has_seppa s r = false → have_rv s r = false →
      processRow s r = .ok []) ∧
    (∀ l, processRow s r = .ok l →
      l.length = numTypes s r ∧
      (∀ c ∈ l, c.epoch = mjdOf (r.epoch.getD 0)) ∧
      l.countP (fun c => c.quant_type == .radec) = (if has_radec s r then 1 else 0) ∧
      l.countP (fun c => c.quant_type == .seppa) = (if has_seppa s r then 1 else 0) ∧
      l.countP (fun c => c.quant_type == .rv) = (if have_rv s r then 1 else 0) ∧
      (∀ c ∈ l, c.quant_type = .rv → c.quant2 = none ∧ c.quant2_err = none)) := by
  constructor
  · intro h1 h2 h3
    rw [processRow_ok_of_errColsOk (by simp [errColsOk, h1, h2, h3])]
    simp [expectedRows, h1, h2, h3]
  · intro l hl
    obtain ⟨he, rfl⟩ := processRow_inv hl
    refine ⟨expectedRows_length s r, expectedRows_epoch s r, ?_, ?_, ?_,
      expectedRows_rv_nulls s r⟩
    · rw [List.countP_eq_length_filter, expectedRows_filter_radec]
      cases hrd : has_radec s r <;> simp
    · rw [List.countP_eq_length_filter, expectedRows_filter_seppa]
      cases hsp : has_seppa s r <;> simp
    · rw [List.countP_eq_length_filter, expectedRows_filter_rv]
      cases hrv : have_rv s r <;> simp

/-- C1 witness: a row with only an epoch satisfies no condition and is
silently processed into zero output rows. -/
theorem C1_row_fanout_witness : processRow fullSchema rowEmpty = .ok [] :=
  (C1_row_fanout fullSchema rowEmpty).1 rfl rfl rfl

/-- C2: the output epoch is the input epoch minus 2400000.5 exactly when the
input epoch is strictly greater than 2400000.5, and the input epoch
unchanged otherwise; the boundary value 2400000.5 is passed through, JD
2451545 becomes MJD 51544.5 and MJD 51544.5 stays 51544.5. -/
theorem C2_epoch_normalisation :
    (∀ (s : Schema) (r : InputRow) (l : List CanonicalRow) (e : ℚ),
      r.epoch = some e → processRow s r = .ok l →
      ∀ c ∈ l, c.epoch = (if e > (2400000.5 : ℚ) then e - 2400000.5 else e)) ∧
    mjdOf (2400000.5 : ℚ) = 2400000.5 ∧
    mjdOf 2451545 = (51544.5 : ℚ) ∧
    mjdOf (51544.5 : ℚ) = 51544.5 := by
  refine ⟨?_, by norm_num [mjdOf], by norm_num [mjdOf], by norm_num [mjdOf]⟩
  intro s r l e he hl c hc
  obtain ⟨_, rfl⟩ := processRow_inv hl
  rw [expectedRows_epoch s r c hc, he]
  rfl

/-- C2 witness: the rv output row of a table whose single row has JD epoch
2451545 carries exactly the converted epoch. -/
theorem C2_epoch_normalisation_witness :
    (⟨(51544.5 : ℚ), some 10, some 1, none, none, QuantType.rv⟩ : CanonicalRow).epoch
      = (if (2451545 : ℚ) > (2400000.5 : ℚ) then 2451545 - 2400000.5 else 2451545) :=
  C2_epoch_normalisation.1 fullSchema rowRvJD _ 2451545 rfl run_rowRvJD _ (by simp)

/-- C3: on any successful run, a row with both `raoff` and `decoff` present
yields exactly one radec output row, with quant1/quant2 and the error cells
copied verbatim (masked error cells included); a row with `raoff` present
but `decoff` absent yields no radec row. -/
theorem C3_radec_row (s : Schema) (r : InputRow) (l : List CanonicalRow)
    (h : processRow s r = .ok l) :
    (has_radec s r = true →
      l.filter (fun c => c.quant_type == .radec) =
        [⟨mjdOf (r.epoch.getD 0), r.raoff, r.raoff_err, r.decoff, r.decoff_err, .radec⟩]) ∧
    (have_ra s r = true → have_dec s r = false →
      l.filter (fun c => c.quant_type == .radec) = []) := by
  obtain ⟨he, rfl⟩ := processRow_inv h
  constructor
  · intro hrd
    rw [expectedRows_filter_radec, if_pos hrd]
  · intro h1 h2
    rw [expectedRows_filter_radec, if_neg (by simp [has_radec, h1, h2])]

/-- C3 witness: a radec row with masked error cells is emitted exactly once,
with the masked errors copied through. -/
theorem C3_radec_row_witness :
    ([(⟨6, some 11, none, some 12, none, QuantType.radec⟩ : CanonicalRow)].filter
        (fun c => c.quant_type == QuantType.radec)) =
      [⟨mjdOf 6, some 11, none, some 12, none, .radec⟩] :=
  (C3_radec_row fullSchema rowRadecNullErr _ run_rowRadecNullErr).1 rfl

/-- C4: a table whose schema lacks the `epoch` column fails with the
missing-required-column error and produces no output rows. -/
theorem C4_missing_epoch_column (t : InputTable)
    (h : t.schema.has_epoch = false) :
    read_formatted_file t = .error .MissingEpochColumn :=
  rff_missing h

/-- C4 witness: a schema without `epoch` fails even though its single row is
a perfectly valid rv measurement. -/
theorem C4_missing_epoch_column_witness :
    read_formatted_file ⟨schemaNoEpoch, [rowRvJD]⟩ = .error .MissingEpochColumn :=
  C4_missing_epoch_column ⟨schemaNoEpoch, [rowRvJD]⟩ rfl

/-- C5: a table whose `epoch` column has at least one masked cell fails with
the incomplete-required-column error, whatever its other rows hold, and
produces no output rows. -/
theorem C5_incomplete_epoch_column (t : InputTable)
    (h1 : t.schema.has_epoch = true) (h2 : ∃ r ∈ t.rows, r.epoch = none) :
    read_formatted_file t = .error .IncompleteEpochColumn :=
  rff_incomplete h1 h2

/-- C5 witness: one masked epoch cell among otherwise valid rows fails the
whole call. -/
theorem C5_incomplete_epoch_column_witness :
    read_formatted_file ⟨fullSchema, [rowRvJD, rowNullEpoch]⟩ =
      .error .IncompleteEpochColumn :=
  C5_incomplete_epoch_column ⟨fullSchema, [rowRvJD, rowNullEpoch]⟩ rfl
    ⟨rowNullEpoch, List.mem_cons_of_mem _ (List.mem_cons_self _ _), rfl⟩

/-- C6 counterexample: with `raoff` and `decoff` present but the `raoff_err`
column entirely absent from the schema, the normaliser does not copy a null
error through — it raises a `KeyError` and emits nothing. -/
theorem C6_counterexample :
    read_formatted_file ⟨schemaRadecNoErr, [rowRadecOnly]⟩ =
      .error (.KeyError .raoff_err) := by
  rw [rff_run rfl (by decide), processRows]
  rw [show processRow schemaRadecNoErr rowRadecOnly = .error (.KeyError .raoff_err) by
    rw [processRow_eq]
    norm_num [errColsOk, firstMissing, has_radec, has_seppa, have_ra, have_dec,
      have_sep, have_pa, have_rv, schemaRadecNoErr, rowRadecOnly]]
  rfl

/-- C6 (amended): classification is gated only by the primary quantities;
null error cells are copied through verbatim without failure; and whenever
every fired branch has its error columns in the schema the row is processed
without error — but an entirely absent error column backing a fired branch
makes the row processing fail with a `KeyError` instead of emitting null
(see the counterexample). -/
theorem C6_error_copying (s : Schema) (r : InputRow) :
    (∀ r2 : InputRow, r2.raoff = r.raoff → r2.decoff = r.decoff →
      r2.sep = r.sep → r2.pa = r.pa → r2.rv = r.rv →
      has_radec s r2 = has_radec s r ∧ has_seppa s r2 = has_seppa s r ∧
        have_rv s r2 = have_rv s r) ∧
    (errColsOk s r = true → processRow s r = .ok (expectedRows s r)) ∧
    (∀ l, processRow s r = .ok l → ∀ c ∈ l,
      (c.quant_type = .radec →
        c.quant1_err = r.raoff_err ∧ c.quant2_err = r.decoff_err) ∧
      (c.quant_type = .seppa →
        c.quant1_err = r.sep_err ∧ c.quant2_err = r.pa_err) ∧
      (c.quant_type = .rv → c.quant1_err = r.rv_err)) := by
  refine ⟨?_, processRow_ok_of_errColsOk, ?_⟩
  · intro r2 h1 h2 h3 h4 h5
    simp [has_radec, has_seppa, have_ra, have_dec, have_sep, have_pa, have_rv,
      h1, h2, h3, h4, h5]
  · intro l hl
    obtain ⟨he, rfl⟩ := processRow_inv hl
    exact expectedRows_err_verbatim s r

/-- C6 witness: with all error columns in the schema, a radec row whose
error cells are masked is processed without failure. -/
theorem C6_error_copying_witness :
    processRow fullSchema rowRadecNullErr =
      .ok (expectedRows fullSchema rowRadecNullErr) :=
  (C6_error_copying fullSchema rowRadecNullErr).2.1 (by decide)

/-- C7 counterexample: a table that passes both epoch checks can still fail:
the epoch column exists, every epoch cell is unmasked, and yet the call
raises a `KeyError` because the `raoff_err` column backing the fired radec
branch is absent. -/
theorem C7_counterexample :
    (⟨schemaRadecNoErr, [rowRadecOnly]⟩ : InputTable).schema.has_epoch = true ∧
    (⟨schemaRadecNoErr, [rowRadecOnly]⟩ : InputTable).rows.all
      (fun r => r.epoch.isSome) = true ∧
    read_formatted_file ⟨schemaRadecNoErr, [rowRadecOnly]⟩ ≠
      .error .MissingEpochColumn ∧
    read_formatted_file ⟨schemaRadecNoErr, [rowRadecOnly]⟩ ≠
      .error .IncompleteEpochColumn ∧
    read_formatted_file ⟨schemaRadecNoErr, [rowRadecOnly]⟩ =
      .error (.KeyError .raoff_err) := by
  have h : read_formatted_file ⟨schemaRadecNoErr, [rowRadecOnly]⟩ =
      .error (.KeyError .raoff_err) := by
    rw [rff_run rfl (by decide), processRows]
    rw [show processRow schemaRadecNoErr rowRadecOnly = .error (.KeyError .raoff_err) by
      rw [processRow_eq]
      norm_num [errColsOk, firstMissing, has_radec, has_seppa, have_ra, have_dec,
        have_sep, have_pa, have_rv, schemaRadecNoErr, rowRadecOnly]]
    rfl
  exact ⟨rfl, by decide, by rw [h]; simp, by rw [h]; simp, h⟩

/-- C7 (amended): the epoch-column and epoch-value checks are exact — the
missing-column error occurs iff the `epoch` column is absent, and the
incomplete-column error occurs iff the column exists and some epoch cell is
masked.  A table passing both checks succeeds whenever every fired branch
has its error columns in the schema (in particular, omitting `sep`/`pa`
never by itself raises), and a schema without the `sep` column can never
produce a seppa output row; but absence of an error column backing a fired
branch raises a `KeyError`, a third failure condition the claim omits (see
the counterexample). -/
theorem C7_failure_conditions :
    (∀ t : InputTable, read_formatted_file t = .error .MissingEpochColumn ↔
      t.schema.has_epoch = false) ∧
    (∀ t : InputTable, read_formatted_file t = .error .IncompleteEpochColumn ↔
      (t.schema.has_epoch = true ∧ ∃ r ∈ t.rows, r.epoch = none)) ∧
    (∀ t : InputTable, t.schema.has_epoch = true →
      (∀ r ∈ t.rows, r.epoch.isSome = true) →
      (∀ r ∈ t.rows, errColsOk t.schema r = true) →
      read_formatted_file t = .ok ((t.rows.map (expectedRows t.schema)).flatten)) ∧
    (∀ (t : InputTable) (l : List CanonicalRow), t.schema.has_sep = false →
      read_formatted_file t = .ok l → ∀ c ∈ l, c.quant_type ≠ .seppa) := by
  refine ⟨?_, ?_, ?_, ?_⟩
  · intro t
    constructor
    · intro h
      by_cases h1 : t.schema.has_epoch = true
      · by_cases h2 : t.rows.all (fun r => r.epoch.isSome) = true
        · rw [rff_run h1 (List.all_eq_true.mp h2)] at h
          obtain ⟨c, hc⟩ := processRows_error_key h
          simp at hc
        · rw [read_formatted_file, if_pos h1, if_neg h2] at h
          simp at h
      · simpa using h1
    · exact rff_missing
  · intro t
    constructor
    · intro h
      by_cases h1 : t.schema.has_epoch = true
      · by_cases h2 : t.rows.all (fun r => r.epoch.isSome) = true
        · rw [rff_run h1 (List.all_eq_true.mp h2)] at h
          obtain ⟨c, hc⟩ := processRows_error_key h
          simp at hc
        · refine ⟨h1, ?_⟩
          simp only [List.all_eq_true, not_forall] at h2
          obtain ⟨r, hr, hn⟩ := h2
          exact ⟨r, hr, Option.not_isSome_iff_eq_none.mp (by simpa using hn)⟩
      · rw [rff_missing (by simpa using h1)] at h
        simp at h
    · exact fun hh => rff_incomplete hh.1 hh.2
  · intro t h1 h2 h3
    rw [rff_run h1 h2]
    exact processRows_ok_of h3
  · intro t l hsep h c hc ht
    obtain ⟨_, _, hrun⟩ := rff_ok_inv h
    obtain ⟨_, rfl⟩ := processRows_inv hrun
    rw [List.mem_flatten] at hc
    obtain ⟨g, hg, hcg⟩ := hc
    obtain ⟨r, hr, rfl⟩ := List.mem_map.mp hg
    have hsp : has_seppa t.schema r = false := by
      simp [has_seppa, have_sep, hsep]
    exact expectedRows_no_seppa hsp c hcg ht

/-- C7 witness: on a schema without `sep`/`pa` columns the call succeeds and
the emitted radec row is not a seppa row. -/
theorem C7_failure_conditions_witness :
    (⟨10, some 1, some 2, some 3, some 4, QuantType.radec⟩ : CanonicalRow).quant_type
      ≠ QuantType.seppa :=
  C7_failure_conditions.2.2.2 ⟨schemaNoSepPa, [rowRadecRv]⟩ _ rfl run_noSepPa _
    (by simp [run_noSepPa])

/-- C8 counterexample: round-trip idempotence fails for a canonical table
produced by the normaliser itself.  A JD epoch of 4800002 normalises to MJD
2400001.5, which is still above the threshold, so re-normalising the
re-labelled table subtracts 2400000.5 a second time and the epochs differ. -/
theorem C8_counterexample :
    read_formatted_file ⟨fullSchema, [rowHugeEpoch]⟩ =
      .ok [⟨4800003/2, some 1, some 0, none, none, .rv⟩] ∧
    read_formatted_file (relabel [⟨4800003/2, some 1, some 0, none, none, .rv⟩]) =
      .ok [⟨1, some 1, some 0, none, none, .rv⟩] ∧
    ((⟨1, some 1, some 0, none, none, .rv⟩ : CanonicalRow) ≠
      ⟨4800003/2, some 1, some 0, none, none, .rv⟩) := by
  refine ⟨?_, ?_, ?_⟩
  · rw [rff_run rfl (by decide), processRows_ok_of (by decide)]
    norm_num [expectedRows, has_radec, has_seppa, have_ra, have_dec, have_sep,
      have_pa, have_rv, fullSchema, rowHugeEpoch, mjdOf]
  · rw [rff_run rfl (by decide), processRows_ok_of (by decide)]
    norm_num [expectedRows, has_radec, has_seppa, have_ra, have_dec, have_sep,
      have_pa, have_rv, fullSchema, relabel, relabelRow, mjdOf]
  · intro h
    have := congrArg CanonicalRow.epoch h
    norm_num at this

/-- C8 (amended): round-trip idempotence holds for every canonical output
table all of whose epochs are at most the JD threshold 2400000.5 (true of
any real MJD data): re-normalising the table after re-labelling its columns
with the original input names reproduces exactly the same canonical rows.
Without that bound the epoch is converted a second time (see the
counterexample). -/
theorem C8_roundtrip (t : InputTable) (l : List CanonicalRow)
    (h : read_formatted_file t = .ok l)
    (hmjd : ∀ c ∈ l, ¬ ((2400000.5 : ℚ) < c.epoch)) :
    read_formatted_file (relabel l) = .ok l := by
  obtain ⟨hep, hsome, hrun⟩ := rff_ok_inv h
  have hws : ∀ c ∈ l, wellShaped c = true := by
    obtain ⟨_, rfl⟩ := processRows_inv hrun
    intro c hc
    rw [List.mem_flatten] at hc
    obtain ⟨g, hg, hcg⟩ := hc
    obtain ⟨r, hr, rfl⟩ := List.mem_map.mp hg
    exact expectedRows_wellShaped _ _ c hcg
  have hall : ∀ r ∈ (relabel l).rows, r.epoch.isSome = true := by
    intro r hr
    obtain ⟨c, hc, rfl⟩ := List.mem_map.mp hr
    rw [relabelRow_epoch]
    rfl
  rw [rff_run rfl hall]
  exact processRows_singletons (fun c hc => processRow_relabel (hws c hc) (hmjd c hc))

/-- C8 witness: the canonical table of an already-MJD rv measurement
round-trips to itself. -/
theorem C8_roundtrip_witness :
    read_formatted_file (relabel [⟨(51544.5 : ℚ), some 10, some 1, none, none, .rv⟩]) =
      .ok [⟨(51544.5 : ℚ), some 10, some 1, none, none, .rv⟩] :=
  C8_roundtrip ⟨fullSchema, [rowRvMJD]⟩ _ run_rowRvMJD
    (by intro c hc; simp only [List.mem_singleton] at hc; subst hc; norm_num)

/-- C9 counterexample: a table in which one row fans out into two output
rows while two other rows contribute nothing has three input rows but only
two output rows, so "output count ≥ input count whenever any row yields
multiple types" fails as stated. -/
theorem C9_counterexample :
    read_formatted_file tableFanThenEmpty =
      .ok [⟨10, some 1, some 2, some 3, some 4, .radec⟩,
           ⟨10, some 5, some 6, none, none, .rv⟩] ∧
    2 ≤ numTypes tableFanThenEmpty.schema rowRadecRv ∧
    rowRadecRv ∈ tableFanThenEmpty.rows ∧
    ([⟨10, some 1, some 2, some 3, some 4, .radec⟩,
      ⟨10, some 5, some 6, none, none, .rv⟩] : List CanonicalRow).length <
      tableFanThenEmpty.rows.length :=
  ⟨run_fanThenEmpty, by decide, List.mem_cons_self _ _, by decide⟩

/-- C9 (amended): the output row count is at least the input row count
whenever every input row satisfies at least one measurement condition (the
claim as stated fails when a fanning-out row coexists with zero-type rows,
see the counterexample); and a row satisfying zero conditions is processed
into zero output rows with no error. -/
theorem C9_output_counts :
    (∀ (t : InputTable) (l : List CanonicalRow), read_formatted_file t = .ok l →
      (∀ r ∈ t.rows, 1 ≤ numTypes t.schema r) → t.rows.length ≤ l.length) ∧
    (∀ (s : Schema) (r : InputRow), numTypes s r = 0 → processRow s r = .ok []) := by
  constructor
  · intro t l h hge
    obtain ⟨_, _, hrun⟩ := rff_ok_inv h
    obtain ⟨_, rfl⟩ := processRows_inv hrun
    rw [List.length_flatten, List.map_map]
    have hlen : t.rows.length =
        (t.rows.map (List.length ∘ expectedRows t.schema)).length := by simp
    rw [hlen]
    apply List.length_le_sum_of_one_le
    intro x hx
    obtain ⟨r, hr, rfl⟩ := List.mem_map.mp hx
    rw [Function.comp_apply, expectedRows_length]
    exact hge r hr
  · intro s r h
    have hrd : has_radec s r = false := by
      cases hrd : has_radec s r with
      | false => rfl
      | true => rw [numTypes, hrd] at h; simp at h
    have hsp : has_seppa s r = false := by
      cases hsp : has_seppa s r with
      | false => rfl
      | true => rw [numTypes, hsp] at h; simp at h
    have hrv : have_rv s r = false := by
      cases hrv : have_rv s r with
      | false => rfl
      | true => rw [numTypes, hrv] at h; simp at h
    rw [processRow_ok_of_errColsOk (by simp [errColsOk, hrd, hsp, hrv])]
    simp [expectedRows, hrd, hsp, hrv]

/-- C9 witness: a single all-measurements row gives one input row and three
output rows. -/
theorem C9_output_counts_witness :
    (⟨fullSchema, [rowAll]⟩ : InputTable).rows.length ≤
      ([⟨51544.5, some 1, some (1/10), some 2, some (2/10), .radec⟩,
        ⟨51544.5, some 3, none, some 4, some (4/10), .seppa⟩,
        ⟨51544.5, some 5, some (5/10), none, none, .rv⟩] : List CanonicalRow).length :=
  C9_output_counts.1 ⟨fullSchema, [rowAll]⟩ _ run_rowAll (by decide)

/-- C10: the output rows come grouped by input row, the groups appear in
input order and contiguously (the output is the concatenation of the
per-row groups), and inside one group the emission order is radec, then
seppa, then rv. -/
theorem C10_output_order (t : InputTable) (out : List CanonicalRow)
    (h : read_formatted_file t = .ok out) :
    out = (t.rows.map (expectedRows t.schema)).flatten ∧
    List.Forall₂ (fun r g => processRow t.schema r = .ok g ∧
        g.map (fun c => c.quant_type) = typePattern t.schema r)
      t.rows (t.rows.map (expectedRows t.schema)) := by
  obtain ⟨_, _, hrun⟩ := rff_ok_inv h
  obtain ⟨herr, rfl⟩ := processRows_inv hrun
  refine ⟨rfl, forall₂_map_self ?_⟩
  intro r hr
  exact ⟨processRow_ok_of_errColsOk (herr r hr), expectedRows_types _ _⟩

/-- C10 witness: a radec+rv row yields its group in emission order. -/
theorem C10_output_order_witness :
    ([⟨10, some 1, some 2, some 3, some 4, .radec⟩,
      ⟨10, some 5, some 6, none, none, .rv⟩] : List CanonicalRow) =
      ((⟨fullSchema, [rowRadecRv]⟩ : InputTable).rows.map
        (expectedRows fullSchema)).flatten ∧
    List.Forall₂ (fun r g => processRow fullSchema r = .ok g ∧
        g.map (fun c => c.quant_type) = typePattern fullSchema r)
      (⟨fullSchema, [rowRadecRv]⟩ : InputTable).rows
      ((⟨fullSchema, [rowRadecRv]⟩ : InputTable).rows.map
        (expectedRows fullSchema)) :=
  C10_output_order ⟨fullSchema, [rowRadecRv]⟩ _ run_radecRv
